import Mathlib

/-!
# Verification of the montreal-events-auditor ranking-and-selection pipeline

Shallow embedding of the funnel implemented in `src/app/pipeline.py`,
`src/graph/weekly_flow.py`, `src/agents/ranker_faiss.py` and
`src/agents/summarizer.py`: temporal window filtering, hard constraint
filtering, semantic ranking, borough preference weighting, external-judge
selection and its fallback.

Conventions of the embedding:
* a pandas DataFrame of event rows is a `List Record`; a missing (NaN) cell
  is `Option.none`;
* floating-point scores, prices and weights are modelled as exact rationals;
* timestamps are minutes of local civil time as integers; an unparsable
  start time (NaT) is `none`;
* the external embedding capability composed with L2 normalization is an
  opaque parameter `E : String → Vec` (the source normalizes with a real
  square root, which has no exact rational counterpart; every theorem below
  holds for an arbitrary such map or instantiates it with unit vectors).
-/

namespace MtlEvents

/-- One event listing, with the French dataset columns used by the pipeline.
`date_debut` holds the parsed start timestamp (minutes of local time); the
cleaner alias `start_datetime` is `pd.to_datetime` of the same raw column, so
one field models both. -/
structure Record where
  titre : Option String := none
  title : Option String := none
  description : Option String := none
  url_fiche : Option String := none
  arrondissement : Option String := none
  type_evenement : Option String := none
  emplacement : Option String := none
  public_cible : Option String := none
  cout : Option String := none
  date_debut : Option Int := none
  is_free : Bool := false
  temp_c : Option ℚ := none
  rain_prob : Option ℚ := none
deriving DecidableEq

/-- The recognized `hard_filters` rules of the preference configuration.
A `[]` list or `none` models an absent key (Python `hf.get(...)` default). -/
structure HardFilters where
  arrondissement_allow : List String := []
  type_evenement_allow : List String := []
  emplacement_exclude : List String := []
  audience_allow : List String := []
  exclude_children : Option Bool := none
  max_price : Option ℚ := none
  free_only : Bool := false
deriving DecidableEq

/-- The preference configuration document: `likes` plus `hard_filters`. -/
structure Prefs where
  likes : String := ""
  hard_filters : HardFilters := {}
deriving DecidableEq

/-- An empty rule set: no hard filter configured. -/
def emptyHardFilters : HardFilters := {}

/-- Substring containment on character lists. -/
def listContainsSub (needle : List Char) : List Char → Bool
  | [] => needle.isPrefixOf []
  | c :: t => needle.isPrefixOf (c :: t) || listContainsSub needle t

/-- Substring containment, `needle in hay` on Python strings. -/
def containsSub (needle hay : String) : Bool :=
  listContainsSub needle.toList hay.toList

/-- Python `str.lower()`, character-wise. -/
def lowerStr (s : String) : String :=
  String.mk (s.toList.map Char.toLower)

/-- Python `str.strip()`: drop whitespace from both ends. -/
def trimStr (s : String) : String :=
  String.mk (((s.toList.dropWhile Char.isWhitespace).reverse.dropWhile
    Char.isWhitespace).reverse)

/-- Python slicing `s[:n]`. -/
def takeStr (s : String) (n : Nat) : String :=
  String.mk (s.toList.take n)

/-- Number of characters of a string. -/
def strLen (s : String) : Nat := s.toList.length

/-- Python `str.split()` with no argument: tokens between whitespace runs,
empties dropped; `acc` holds the characters of the current token, reversed. -/
def splitWsTokens : List Char → List Char → List String
  | [], acc => if acc.isEmpty then [] else [String.mk acc.reverse]
  | c :: t, acc =>
    if c.isWhitespace then
      if acc.isEmpty then splitWsTokens t []
      else String.mk acc.reverse :: splitWsTokens t []
    else splitWsTokens t (c :: acc)

/-- `sep.join parts`. -/
def joinSep (sep : String) : List String → String
  | [] => ""
  | [x] => x
  | x :: y :: t => x ++ sep ++ joinSep sep (y :: t)

/-- Pandas `Series.isin`: a NaN cell is never a member. -/
def optIsIn (v : Option String) (allow : List String) : Bool :=
  match v with
  | some s => allow.contains s
  | none => false

/-- Value of a digit string, `foldl` over base 10. -/
def digitsVal (cs : List Char) : ℚ :=
  ((cs.foldl (fun a c => a * 10 + (c.toNat - 48)) 0 : Nat) : ℚ)

/-- Rational value of `intds . fracds`. -/
def ratOfParts (intds fracds : List Char) : ℚ :=
  digitsVal intds + digitsVal fracds / (10 ^ fracds.length)

/-- Model of Python `float(tok)` on the tokens the price filter feeds it:
an optional sign, then digits with at most one decimal point and at least one
digit overall; anything else fails. -/
def parseFloatTok (s : String) : Option ℚ :=
  let signed : ℚ × List Char :=
    match s.toList with
    | '-' :: rest => (-1, rest)
    | '+' :: rest => (1, rest)
    | rest => (1, rest)
  let sgn := signed.1
  let cs := signed.2
  let intPart := cs.takeWhile Char.isDigit
  let rest := cs.dropWhile Char.isDigit
  match rest with
  | [] => if intPart = [] then none else some (sgn * digitsVal intPart)
  | '.' :: fracRest =>
    let fracPart := fracRest.takeWhile Char.isDigit
    let rest2 := fracRest.dropWhile Char.isDigit
    if rest2 = [] ∧ (intPart ≠ [] ∨ fracPart ≠ []) then
      some (sgn * ratOfParts intPart fracPart)
    else none
  | _ => none

/-- `txt.replace("$", " ").replace(",", " ").split()` followed by taking the
first token that parses as a float (pipeline `_price_ok`). -/
def firstNumTok (txt : String) : Option ℚ :=
  let cleaned := String.mk (txt.toList.map (fun c => if c = '$' ∨ c = ',' then ' ' else c))
  (splitWsTokens cleaned.toList []).findSome? parseFloatTok

/-- Price predicate `_price_ok` of `app/pipeline.py` (only reached when
`max_price` is set): NaN passes; a label containing "gratuit" or "free"
passes; otherwise the first parsed number must be at most `max_price`,
and no parsed number passes. -/
def price_ok (max_price : ℚ) (v : Option String) : Bool :=
  match v with
  | none => true
  | some s =>
    let txt := lowerStr (trimStr s)
    if containsSub "gratuit" txt || containsSub "free" txt then true
    else
      match firstNumTok txt with
      | none => true
      | some n => decide (n ≤ max_price)

/-- `_apply_hard_filters` of `app/pipeline.py`: each rule applies only when
its configured value is truthy (non-empty list, non-None price); membership
tests are exact and case-sensitive `Series.isin` tests, and the `free_only`
rule is never read. -/
def pipelineApplyHardFilters (hard : HardFilters) (df : List Record) : List Record :=
  let out := df
  let out := if hard.arrondissement_allow.isEmpty then out
             else out.filter (fun r => optIsIn r.arrondissement hard.arrondissement_allow)
  let out := if hard.type_evenement_allow.isEmpty then out
             else out.filter (fun r => optIsIn r.type_evenement hard.type_evenement_allow)
  let out := if hard.emplacement_exclude.isEmpty then out
             else out.filter (fun r => !(optIsIn r.emplacement hard.emplacement_exclude))
  let out := if hard.audience_allow.isEmpty then out
             else out.filter (fun r => optIsIn r.public_cible hard.audience_allow)
  match hard.max_price with
  | none => out
  | some m => out.filter (fun r => price_ok m r.cout)

/-- A regex word character, `\w`. -/
def isWordChar (c : Char) : Bool := c.isAlphanum || c = '_'

/-- The pattern occurs in `cs` starting at position `i`. -/
def patAt (pat : List Char) (cs : List Char) (i : Nat) : Bool :=
  pat.isPrefixOf (cs.drop i)

/-- The regex `\benfant|jeunesse|jeunes|ados\b` applied to the lowercased
audience by the weekly-flow audience rule. -/
def childAudienceMatch (s : String) : Bool :=
  let cs := s.toList
  (List.range (cs.length + 1)).any (fun i =>
    (patAt "enfant".toList cs i && (decide (i = 0) || !isWordChar (cs.getD (i - 1) ' '))) ||
    patAt "jeunesse".toList cs i ||
    patAt "jeunes".toList cs i ||
    (patAt "ados".toList cs i && (decide (cs.length ≤ i + 4) || !isWordChar (cs.getD (i + 4) ' '))))

/-- `df["public_cible"].fillna("").str.lower()` for one row. -/
def audLower (r : Record) : String := lowerStr (r.public_cible.getD "")

/-- Audience mask of `graph/weekly_flow.py`: keep when the audience is empty
or in the lowercased allow-list (an empty allow-list keeps everything), and,
when `exclude_children` (default true) is on, the audience must not match the
children/youth keyword regex. -/
def weeklyAudienceKeep (hf : HardFilters) (r : Record) : Bool :=
  let aud := audLower r
  let base := if hf.audience_allow.isEmpty then true
              else (aud == "") || (hf.audience_allow.map lowerStr).contains aud
  if hf.exclude_children.getD true then base && !childAudienceMatch aud else base

/-- Emplacement mask of `graph/weekly_flow.py`: drop rows whose lowercased
location label contains any lowercased deny token (substring match). -/
def weeklyEmplacementKeep (hf : HardFilters) (r : Record) : Bool :=
  let emp := lowerStr (r.emplacement.getD "")
  (hf.emplacement_exclude.map lowerStr).all (fun token => !containsSub token emp)

/-- Event-type mask of `graph/weekly_flow.py`: lowercased membership when the
allow-list is non-empty. -/
def weeklyTypeKeep (hf : HardFilters) (r : Record) : Bool :=
  if hf.type_evenement_allow.isEmpty then true
  else (hf.type_evenement_allow.map lowerStr).contains (lowerStr (r.type_evenement.getD ""))

/-- Borough mask of `graph/weekly_flow.py`: lowercased membership when the
allow-list is non-empty. -/
def weeklyBoroughKeep (hf : HardFilters) (r : Record) : Bool :=
  if hf.arrondissement_allow.isEmpty then true
  else (hf.arrondissement_allow.map lowerStr).contains (lowerStr (r.arrondissement.getD ""))

/-- `df["cout"].astype(str).str.lower()` for one row: pandas renders a NaN
cell as the string "nan". -/
def costStr (r : Record) : String :=
  lowerStr (match r.cout with
   | some s => s
   | none => "nan")

/-- First match of the regex `(\d+[\.,]?\d*)`: a maximal digit run, an
optional single separator, then a maximal digit run. -/
def firstDigitMatch : List Char → Option (List Char)
  | [] => none
  | c :: rest =>
    if c.isDigit then
      let ds := (c :: rest).takeWhile Char.isDigit
      let after := (c :: rest).dropWhile Char.isDigit
      match after with
      | p :: more =>
        if p = '.' ∨ p = ',' then some (ds ++ ['.'] ++ more.takeWhile Char.isDigit)
        else some ds
      | [] => some ds
    else firstDigitMatch rest

/-- `str.extract(r"(\d+[\.,]?\d*)")`, comma replaced by a dot, then
`pd.to_numeric` — the numeric price the weekly flow reads from a cost label. -/
def weeklyExtractPrice (txt : String) : Option ℚ :=
  match firstDigitMatch txt.toList with
  | none => none
  | some m =>
    let intds := m.takeWhile Char.isDigit
    let rest := m.dropWhile Char.isDigit
    match rest with
    | [] => some (digitsVal intds)
    | _ :: frac => some (ratOfParts intds frac)

/-- Price mask of `graph/weekly_flow.py`: under `free_only` only the
"gratuit" keyword passes; otherwise, when `max_price` is a number, keep
"gratuit" labels and labels whose extracted price is at most the ceiling
(a label with no extractable number is dropped, NaN comparison). -/
def weeklyPriceKeep (hf : HardFilters) (r : Record) : Bool :=
  let cost := costStr r
  if hf.free_only then containsSub "gratuit" cost
  else
    match hf.max_price with
    | some m => containsSub "gratuit" cost ||
        (match weeklyExtractPrice cost with
         | some n => decide (n ≤ m)
         | none => false)
    | none => true

/-- `_apply_hard_filters` of `graph/weekly_flow.py`: the five masks applied in
source order (audience, emplacement, type, borough, price). -/
def weeklyApplyHardFilters (hf : HardFilters) (df : List Record) : List Record :=
  let df := df.filter (weeklyAudienceKeep hf)
  let df := df.filter (weeklyEmplacementKeep hf)
  let df := df.filter (weeklyTypeKeep hf)
  let df := df.filter (weeklyBoroughKeep hf)
  df.filter (weeklyPriceKeep hf)

/-! ## Temporal window filters -/

/-- Minutes in one civil day. -/
def minutesPerDay : Int := 1440

/-- The window predicate as the spec words it: retain exactly when
`now ≤ start_time < now + window_days`, `now` the current local time; an
unparsable start time is excluded. -/
def specWindowKeep (now days : Int) (start : Option Int) : Bool :=
  match start with
  | none => false
  | some t => decide (now ≤ t) && decide (t < now + days * minutesPerDay)

/-- `_upcoming_window` of `app/pipeline.py` for one row: the mask is
`(s >= now) & (s < now + window_days)` on naive local timestamps, NaT
comparing false. -/
def pipelineWindowKeep (now days : Int) (start : Option Int) : Bool :=
  match start with
  | none => false
  | some t => decide (now ≤ t) && decide (t < now + days * minutesPerDay)

/-- Local midnight of the day containing `now`
(`datetime(now.year, now.month, now.day)`). -/
def weeklyWindowStart (now : Int) : Int :=
  minutesPerDay * (Int.ediv now minutesPerDay)

/-- `_upcoming_window` of `graph/weekly_flow.py` for one row: the window is
`[start_of_today, start_of_today + days)` anchored at local midnight. -/
def weeklyWindowKeep (now days : Int) (start : Option Int) : Bool :=
  match start with
  | none => false
  | some t =>
    decide (weeklyWindowStart now ≤ t) &&
    decide (t < weeklyWindowStart now + days * minutesPerDay)

/-- Row filter of `app/pipeline.py`'s `_upcoming_window`. -/
def pipelineUpcomingWindow (now days : Int) (df : List Record) : List Record :=
  df.filter (fun r => pipelineWindowKeep now days r.date_debut)

/-- Row filter of `graph/weekly_flow.py`'s `_upcoming_window`. -/
def weeklyUpcomingWindow (now days : Int) (df : List Record) : List Record :=
  df.filter (fun r => weeklyWindowKeep now days r.date_debut)

/-! ## Semantic ranker (`agents/ranker_faiss.py`) -/

/-- An embedding vector with exact rational coordinates. -/
abbrev Vec := List ℚ

/-- Inner product of two vectors. -/
def dot (u v : Vec) : ℚ := (List.zipWith (fun a b => a * b) u v).sum

/-- Insert into a descending-sorted list, after any equal keys (stable). -/
def insertDesc {α : Type} (key : α → ℚ) (x : α) : List α → List α
  | [] => [x]
  | y :: ys => if key y ≤ key x then x :: y :: ys else y :: insertDesc key x ys

/-- Stable descending sort by a rational key. -/
def sortDescBy {α : Type} (key : α → ℚ) : List α → List α
  | [] => []
  | x :: xs => insertDesc key x (sortDescBy key xs)

/-- `_prep_event_text`: trimmed title, trimmed description truncated to 300
characters with an ellipsis, the non-empty parts joined by " | ". -/
def prepEventText (r : Record) : String :=
  let t := trimStr (r.title.getD "")
  let desc := trimStr (r.description.getD "")
  let snippet := if strLen desc > 300 then takeStr desc 300 ++ "…" else desc
  joinSep " | " (([t, snippet]).filter (fun p => p ≠ ""))

/-- `_build_pref_text`: the stripped `likes`, or the fixed default statement
when `likes` is empty. -/
def buildPrefText (p : Prefs) : String :=
  let likes := trimStr p.likes
  if likes ≠ "" then likes
  else "Je préfère des événements publics intéressants à Montréal."

/-- A row together with the `score` column the ranker added. -/
structure Scored where
  event : Record
  score : ℚ
deriving DecidableEq

/-- `_rank_faiss`: embed and normalize the record texts and the preference
text through the opaque map `E`, model `index.search(pvec, k=N)` as exact
inner-product search — it yields the similarity scores sorted descending
(`D[0]`) together with the index permutation (`I`, unused by the source) —
then assign `D[0]` positionally (`out["score"] = scores`) and sort the rows
by the assigned score, descending. -/
def rankFaiss (E : String → Vec) (df : List Record) (texts : List String)
    (prefText : String) : List Scored :=
  let X := texts.map E
  let p := E prefText
  let sims := X.map (fun x => dot x p)
  let scores := sortDescBy id sims
  let out := (df.zip scores).map (fun rs => ⟨rs.1, rs.2⟩)
  sortDescBy Scored.score out

/-- `rank`: empty input short-circuits with no external call; otherwise rank
by similarity to the preference text read from `preferences.json`. -/
def rank (E : String → Vec) (filePrefs : Prefs) (df : List Record) : List Scored :=
  match df with
  | [] => []
  | _ :: _ => rankFaiss E df (df.map prepEventText) (buildPrefText filePrefs)

/-! ## Borough preference weights (`graph/weekly_flow.py`) -/

/-- The weight the dict comprehension of `_add_borough_preference_score`
associates with a lowercased borough key: entries are written in list order,
so for duplicate lowercased names the last index wins; a key not in the list
has no entry. -/
def boroughWeight (ordered : List String) (key : String) : ℚ :=
  match ((List.range ordered.length).filter
      (fun i => lowerStr (ordered.getD i "") == key)).getLast? with
  | none => 0
  | some i =>
    if ordered.length = 1 then 1
    else 1 - ((i : ℚ) / ((ordered.length : ℚ) - 1)) * (9 / 10)

/-- `_add_borough_preference_score` for one row: an empty preference list
scores 0, otherwise map the lowercased borough through the weight dict with
`fillna(0.0)`. -/
def addBoroughPref (ordered : List String) (r : Record) : ℚ :=
  if ordered.isEmpty then 0
  else boroughWeight ordered (lowerStr (r.arrondissement.getD ""))

/-! ## External-judge selection (`agents/summarizer.py` and the callers) -/

/-- The shortlist identifier set the validator builds:
`df_short["url_fiche"].fillna("").astype(str)`. -/
def shortlistUrlSet (df : List Record) : List String :=
  df.map (fun r => r.url_fiche.getD "")

/-- The validation step of `select_events_with_llm`: keep only identifiers of
the parsed response that occur in the shortlist identifier set. -/
def validateJudgeUrls (df : List Record) (urls : List String) : List String :=
  urls.filter (fun u => (shortlistUrlSet df).contains u)

/-- `df_short["url_fiche"].isin(chosen)` for one row. -/
def urlChosen (urls : List String) (r : Record) : Bool :=
  match r.url_fiche with
  | some u => urls.contains u
  | none => false

/-- Final selection of `app/pipeline.py`: a truthy judge result keeps the
shortlist rows whose identifier was chosen (shortlist order); a failed
(`None`) or empty result falls back to the first `final_n` shortlist rows. -/
def pipelineFinalSelection (chosen : Option (List String)) (dfShort : List Record)
    (finalN : Nat) : List Record :=
  match chosen with
  | some urls =>
    if urls.isEmpty then dfShort.take finalN
    else dfShort.filter (urlChosen urls)
  | none => dfShort.take finalN

/-- Final selection of `graph/weekly_flow.py`: like the pipeline, but a
short judge result is padded from the not-chosen shortlist rows in order. -/
def weeklyFinalSelection (chosen : Option (List String)) (dfShort : List Record)
    (topN : Nat) : List Record :=
  match chosen with
  | some urls =>
    if urls.isEmpty then dfShort.take topN
    else
      let dfTop := dfShort.filter (urlChosen urls)
      if dfTop.length < topN then
        dfTop ++ (dfShort.filter (fun r => !urlChosen urls r)).take (topN - dfTop.length)
      else dfTop
  | none => dfShort.take topN

/-- The compact row projection `_rows_to_min_json` sends to the judge. -/
structure MinEvent where
  title : String
  url : String
  borough : String
  event_type : String
  start : Option Int
  is_free : Bool
  audience : String
  temp_c : Option ℚ
  rain_prob : Option ℚ
  descr : String
deriving DecidableEq

/-- `_rows_to_min_json` for one row. -/
def minEvent (r : Record) : MinEvent :=
  { title := takeStr (r.titre.getD "") 200
    url := r.url_fiche.getD ""
    borough := r.arrondissement.getD ""
    event_type := r.type_evenement.getD ""
    start := r.date_debut
    is_free := r.is_free
    audience := r.public_cible.getD ""
    temp_c := r.temp_c
    rain_prob := r.rain_prob
    descr := takeStr (r.description.getD "") 700 }

/-- The request payload `select_events_with_llm` builds for the judge. -/
structure JudgeInput where
  likes : String
  boroughOrder : List String
  shortlist : List MinEvent
deriving DecidableEq

/-- The inputs `run_pipeline` (`app/pipeline.py`) hands to the semantic
ranker and to the external judge, as a function of the caller-supplied
preferences and of the `preferences.json` document. `rank` reads its
preference text from the fixed path `preferences.json` (`filePrefs`), and
`select_events_with_llm` is invoked with `prefs_path="preferences.json"`;
the caller preferences feed only the hard filters (their dump to
`data/_prefs_api.json` is never read back). `none` models the early return
on an empty filtered set, before any ranker or judge call; `enrich` is the
external weather enrichment applied to the shortlist. -/
def runPipelineExternalInputs (caller : Prefs) (filePrefs : Prefs)
    (E : String → Vec) (enrich : Record → Record) (now windowDays : Int)
    (shortlistK : Nat) (df : List Record) :
    Option ((List String × String) × JudgeInput) :=
  let df1 := pipelineUpcomingWindow now windowDays df
  let df2 := pipelineApplyHardFilters caller.hard_filters df1
  match df2 with
  | [] => none
  | r :: rest =>
    let texts := (r :: rest).map prepEventText
    let prefText := buildPrefText filePrefs
    let ranked := rankFaiss E (r :: rest) texts prefText
    let short := (ranked.take shortlistK).map (fun s => enrich s.event)
    some ((texts, prefText),
      { likes := trimStr filePrefs.likes
        boroughOrder := filePrefs.hard_filters.arrondissement_allow
        shortlist := short.map minEvent })

/-! ## Shared lemmas -/

/-- A range filter whose predicate holds exactly at `i` yields `[i]`. -/
lemma range_filter_eq_single (n i : Nat) (p : Nat → Bool) (hi : i < n)
    (hp : ∀ j, j < n → (p j = true ↔ j = i)) :
    (List.range n).filter p = [i] := by
  induction n with
  | zero => omega
  | succ m ih =>
    rw [List.range_succ, List.filter_append]
    by_cases hmi : i = m
    · subst hmi
      have h1 : (List.range i).filter p = [] := by
        rw [List.filter_eq_nil_iff]
        intro j hj
        rw [List.mem_range] at hj
        intro hpj
        have := (hp j (by omega)).mp hpj
        omega
      have h2 : p i = true := (hp i hi).mpr rfl
      simp [h1, h2]
    · have hi' : i < m := by
        rcases Nat.lt_succ_iff_lt_or_eq.mp hi with h | h
        · exact h
        · exact absurd h hmi
      have h2 : p m = false := by
        cases hpm : p m with
        | true => exact absurd ((hp m (Nat.lt_succ_self m)).mp hpm) (fun h => hmi h.symm)
        | false => rfl
      rw [ih hi' (fun j hj => hp j (Nat.lt_succ_of_lt hj))]
      simp [h2]

/-! ## Claim theorems -/

/-- Concrete unit-vector embedding map used to exercise the ranker: the text
of the first record embeds to `[1, 0]`, every other text to `[0, 1]`. -/
def c1E : String → Vec := fun s => if s = "A" then [1, 0] else [0, 1]

/-- Claim C1 (code bug): the ranker does not assign each record the dot
product of its own normalized embedding with the normalized preference
embedding. `index.search` returns the similarity scores sorted descending
and `_rank_faiss` writes that sorted array positionally into the rows in
their original order, discarding the index permutation: here record "A",
whose own similarity to the preference vector is 0, is assigned score 1
(the similarity that belongs to record "B"). -/
theorem ranker_misassigns_scores :
    (rank c1E {} [{ title := some "A" }, { title := some "B" }]).map
        (fun s => (s.event.title, s.score)) = [(some "A", 1), (some "B", 0)] ∧
    dot (c1E (prepEventText { title := some "A" })) (c1E (buildPrefText {})) = 0 := by
  constructor
  · simp +decide [rank, rankFaiss, c1E, prepEventText, buildPrefText, trimStr,
      strLen, takeStr, joinSep, dot, sortDescBy, insertDesc]
  · simp +decide [dot, c1E, prepEventText, buildPrefText, trimStr, strLen,
      takeStr, joinSep]

/-- Claim C2 counterexample: with an empty rule set the weekly-flow hard
filter is not the identity — `exclude_children` defaults to true when the
rule is absent, so a record whose audience is "Enfants" is dropped. -/
theorem weekly_empty_rules_not_identity :
    weeklyApplyHardFilters emptyHardFilters [{ public_cible := some "Enfants" }] ≠
      [{ public_cible := some "Enfants" }] := by decide

/-- Claim C2 amended: with an empty rule set, the API pipeline hard filter
returns the input unchanged, while the weekly-flow hard filter removes
exactly the records whose lowercased audience matches the children/youth
keyword pattern (its `exclude_children` rule defaults to on). -/
theorem empty_rules_filters_characterized (df : List Record) :
    pipelineApplyHardFilters emptyHardFilters df = df ∧
    weeklyApplyHardFilters emptyHardFilters df =
      df.filter (fun r => !childAudienceMatch (audLower r)) := by
  refine ⟨rfl, ?_⟩
  simp [weeklyApplyHardFilters, weeklyAudienceKeep, weeklyEmplacementKeep,
    weeklyTypeKeep, weeklyBoroughKeep, weeklyPriceKeep, emptyHardFilters,
    List.filter_filter]

/-- Claim C3 counterexample: at the concrete run time minute 900 of day 0,
the weekly-flow window filter keeps a record starting at local midnight
(minute 0) of the same day, although the claimed predicate
`now ≤ start_time` is false there. -/
theorem weekly_window_keeps_earlier_today :
    weeklyUpcomingWindow 900 7 [{ date_debut := some 0 }] =
      [{ date_debut := some 0 }] ∧
    specWindowKeep 900 7 (some 0) = false := by
  constructor <;> decide

/-- Claim C3 amended: the API pipeline window filter retains a record exactly
per the spec predicate `now ≤ start_time < now + window_days` (so the
half-open boundary behaviour is as claimed there), while the weekly-flow
filter applies the same predicate with local midnight of the current day
substituted for `now`. -/
theorem window_predicates_characterized (now days : Int) (start : Option Int) :
    pipelineWindowKeep now days start = specWindowKeep now days start ∧
    weeklyWindowKeep now days start =
      specWindowKeep (weeklyWindowStart now) days start := by
  refine ⟨rfl, ?_⟩
  cases start <;> rfl

/-- Claim C4 counterexample: the API pipeline hard filter never reads the
`free_only` rule — with `hard_filters = {free_only: true}` and no
`max_price`, a record with cost label "$15" passes unfiltered. -/
theorem pipeline_ignores_free_only :
    pipelineApplyHardFilters { free_only := true } [{ cout := some "$15" }] =
      [{ cout := some "$15" }] := rfl

/-- Claim C4 amended: in the weekly-flow filter, `free_only = true` reduces
the price predicate to the "gratuit" keyword test, unconditionally and
regardless of `max_price` (so "Gratuit" passes and "$15" is excluded
there); the API pipeline filter ignores `free_only` entirely. -/
theorem weekly_free_only_characterized (hf : HardFilters) (r : Record)
    (h : hf.free_only = true) :
    weeklyPriceKeep hf r = containsSub "gratuit" (costStr r) := by
  simp [weeklyPriceKeep, h]

/-- Witness for the amended C4 theorem at the spec scenario. -/
theorem weekly_free_only_witness :
    weeklyPriceKeep { free_only := true, max_price := some 100 }
      { cout := some "Gratuit" } = true ∧
    weeklyPriceKeep { free_only := true, max_price := some 100 }
      { cout := some "$15" } = false := by
  constructor
  · rw [weekly_free_only_characterized _ _ rfl]; decide
  · rw [weekly_free_only_characterized _ _ rfl]; decide

/-- Claim C5: in `run_pipeline`, the preference text used for semantic
ranking and the preferences handed to the external judge come from the
`preferences.json` document, never from the caller-supplied preferences:
two calls whose preferences agree on `hard_filters` (differing only in
`likes`) produce identical ranker inputs and identical judge inputs. -/
theorem likes_noninterference (c1 c2 filePrefs : Prefs) (E : String → Vec)
    (enrich : Record → Record) (now windowDays : Int) (K : Nat)
    (df : List Record) (h : c1.hard_filters = c2.hard_filters) :
    runPipelineExternalInputs c1 filePrefs E enrich now windowDays K df =
      runPipelineExternalInputs c2 filePrefs E enrich now windowDays K df := by
  unfold runPipelineExternalInputs
  rw [h]

/-- Witness for C5: two caller preference documents differing only in
`likes` yield the same external inputs. -/
theorem likes_noninterference_witness :
    runPipelineExternalInputs { likes := "jazz" } { likes := "art" }
        (fun _ => [1]) id 0 7 30 [{ title := some "A", date_debut := some 10 }] =
      runPipelineExternalInputs { likes := "classical" } { likes := "art" }
        (fun _ => [1]) id 0 7 30 [{ title := some "A", date_debut := some 10 }] :=
  likes_noninterference _ _ _ _ _ _ _ _ _ rfl

/-- Claim C7: every identifier in the validated judge selection is present
in the shortlist identifier set; unknown identifiers are dropped by the
filter, which returns normally rather than failing. -/
theorem judge_url_validation_subset (dfShort : List Record)
    (urls : List String) (u : String)
    (h : u ∈ validateJudgeUrls dfShort urls) : u ∈ shortlistUrlSet dfShort := by
  unfold validateJudgeUrls at h
  exact List.mem_of_elem_eq_true (List.mem_filter.mp h).2

/-- Witness for C7: a judge response containing an unknown identifier still
validates, and the surviving identifier is in the shortlist set. -/
theorem judge_url_validation_witness :
    "u1" ∈ shortlistUrlSet [{ url_fiche := some "u1" }] :=
  judge_url_validation_subset [{ url_fiche := some "u1" }]
    ["bogus", "u1"] "u1" (by decide)

/-- Claim C8: when the external judge call fails entirely (modelled `none`:
no credential, or unparseable output), both the API pipeline and the weekly
flow deterministically select the first `final_n` shortlist entries in
their existing order. -/
theorem judge_failure_fallback (dfShort : List Record) (finalN : Nat) :
    pipelineFinalSelection none dfShort finalN = dfShort.take finalN ∧
    weeklyFinalSelection none dfShort finalN = dfShort.take finalN :=
  ⟨rfl, rfl⟩

/-- Claim C9 counterexample: the API pipeline audience rule excludes a
record whose audience field is unset (`Series.isin` never matches NaN),
although the claim says an absent audience is never excluded. -/
theorem pipeline_excludes_unset_audience :
    pipelineApplyHardFilters { audience_allow := ["adultes"] } [{}] = [] ∧
    ({} : Record).public_cible = none := ⟨rfl, rfl⟩

/-- Claim C9 amended: with a non-empty audience allow-list, the weekly-flow
audience rule (children exclusion disabled) keeps a record iff its audience
is unset/empty or its lowercased audience is in the lowercased allow-list,
as claimed; the API pipeline audience rule instead keeps a record iff its
audience is present and case-sensitively equal to an allow-list entry. -/
theorem audience_rules_characterized (allow : List String) (r : Record)
    (h : allow ≠ []) :
    weeklyAudienceKeep { audience_allow := allow, exclude_children := some false } r =
      ((audLower r == "") || (allow.map lowerStr).contains (audLower r)) ∧
    pipelineApplyHardFilters { audience_allow := allow } [r] =
      (if optIsIn r.public_cible allow then [r] else []) := by
  obtain ⟨a, t, rfl⟩ := List.exists_cons_of_ne_nil h
  constructor
  · simp [weeklyAudienceKeep]
  · simp only [pipelineApplyHardFilters]
    cases hv : optIsIn r.public_cible (a :: t) <;> simp [List.filter, hv]

/-- Witness for the amended C9 theorem: a record with audience "Adultes" is
kept by the weekly rule for allow-list ["adultes"] but dropped by the
pipeline rule. -/
theorem audience_rules_witness :
    weeklyAudienceKeep { audience_allow := ["adultes"], exclude_children := some false }
      { public_cible := some "Adultes" } = true ∧
    pipelineApplyHardFilters { audience_allow := ["adultes"] }
      [{ public_cible := some "Adultes" }] = [] := by
  have h := audience_rules_characterized ["adultes"]
    { public_cible := some "Adultes" } (by decide)
  constructor
  · rw [h.1]; decide
  · rw [h.2]; decide

/-- Claim C10 counterexample: the weight dict is keyed by lowercased borough
name, so with the duplicate preference list ["a", "a"] the later entry
overwrites the earlier one and the first listed borough "a" receives weight
1/10 instead of the claimed 1.0. -/
theorem borough_weight_duplicate_entries :
    addBoroughPref ["a", "a"] { arrondissement := some "a" } = 1 / 10 ∧
    ((1 : ℚ) / 10) ≠ 1 := by
  constructor
  · simp +decide [addBoroughPref, boroughWeight, List.range_succ, List.find?]
    norm_num
  · norm_num

/-- Claim C10 amended: provided the lowercased entries of the ordered
borough list are pairwise distinct, a record whose lowercased borough equals
entry i receives weight `1 - (i/(n-1)) * 9/10` — so the first entry receives
1, the last 1/10, intermediate entries descend linearly, and a single entry
receives exactly 1 — and a record whose borough matches no entry receives
exactly 0. -/
theorem borough_weights_characterized (ordered : List String) (r : Record)
    (hnd : ∀ i j : Fin ordered.length,
      lowerStr (ordered.get i) = lowerStr (ordered.get j) → i = j) :
    (∀ i : Fin ordered.length,
      lowerStr (r.arrondissement.getD "") = lowerStr (ordered.get i) →
        addBoroughPref ordered r =
          (if ordered.length = 1 then 1
           else 1 - ((i.val : ℚ) / ((ordered.length : ℚ) - 1)) * (9 / 10))) ∧
    ((∀ i : Fin ordered.length,
        lowerStr (r.arrondissement.getD "") ≠ lowerStr (ordered.get i)) →
      addBoroughPref ordered r = 0) := by
  constructor
  · intro i hk
    have hlen0 : 0 < ordered.length := i.pos
    have hempty : ordered.isEmpty = false := by
      cases ordered with
      | nil => simp at hlen0
      | cons a t => rfl
    have hfilter : (List.range ordered.length).filter
        (fun j => lowerStr (ordered.getD j "") ==
          lowerStr (r.arrondissement.getD "")) = [i.val] := by
      apply range_filter_eq_single _ _ _ i.isLt
      intro j hj
      rw [List.getD_eq_getElem _ _ hj, beq_iff_eq]
      constructor
      · intro hpj
        have hji : (⟨j, hj⟩ : Fin ordered.length) = i := by
          apply hnd
          rw [List.get_eq_getElem, List.get_eq_getElem]
          exact hpj.trans hk
        exact congrArg Fin.val hji
      · intro hje
        subst hje
        rw [← List.get_eq_getElem]
        exact hk.symm
    simp only [addBoroughPref, hempty, Bool.false_eq_true, if_false, boroughWeight]
    rw [hfilter, List.getLast?_singleton]
  · intro hni
    by_cases hord : ordered.isEmpty = true
    · simp [addBoroughPref, hord]
    · have hfilter : (List.range ordered.length).filter
          (fun j => lowerStr (ordered.getD j "") ==
            lowerStr (r.arrondissement.getD "")) = [] := by
        rw [List.filter_eq_nil_iff]
        intro j hjmem
        rw [List.mem_range] at hjmem
        rw [List.getD_eq_getElem _ _ hjmem, beq_iff_eq]
        intro hpj
        exact hni ⟨j, hjmem⟩ (by rw [List.get_eq_getElem]; exact hpj.symm)
      unfold addBoroughPref boroughWeight
      rw [if_neg hord, hfilter]
      rfl

/-- Witness for the amended C10 theorem: in ["a", "b", "c"], a record in
borough "B" (entry index 1, matched case-insensitively) weighs 11/20 and a
record in the unlisted borough "z" weighs 0. -/
theorem borough_weights_witness :
    addBoroughPref ["a", "b", "c"] { arrondissement := some "B" } = 11 / 20 ∧
    addBoroughPref ["a", "b", "c"] { arrondissement := some "z" } = 0 := by
  have h := borough_weights_characterized ["a", "b", "c"]
    { arrondissement := some "B" } (by decide)
  have h2 := borough_weights_characterized ["a", "b", "c"]
    { arrondissement := some "z" } (by decide)
  constructor
  · have h3 := h.1 ⟨1, by decide⟩ (by decide)
    rw [h3]
    norm_num
  · exact h2.2 (by decide)

end MtlEvents
